import Mathlib

/-
Shallow embedding of the YACHT orchestration script `run_YACHT.py`.

The script parses CLI arguments, validates `min_coverage`, derives the two
companion artifact paths from the `--ref_matrix` path, checks that the three
input artifacts exist, loads them, builds the sample vector from the sample
sketch and the hash-to-index dictionary, checks scale-factor consistency,
delegates to `hypothesis_recovery`, and assembles the output table.

Modelling conventions:
- file paths are lists of characters (`FPath`);
- a pandas data frame is an ordered list of named columns (`DFrame`), each a
  list of `Cell` values; column assignment replaces an existing column in
  place or appends a new one at the end, as pandas does;
- sketch scale factors and k-mer counts are integers (sourmash `scaled` is an
  integer), `min_coverage`, `ani_thresh` and `significance` are rationals;
- the loaded artifacts and the external `hypothesis_recovery` function are
  parameters of the run function, so that "the run aborts before X" is
  expressed as independence of the result from those parameters;
- raised `ValueError`s become values of `RunError`, each constructor carrying
  the data interpolated into the corresponding message.
-/

/-- Value stored in one cell of a data-frame column. -/
inductive Cell where
  | str (s : String)
  | int (z : Int)
  | rat (q : ℚ)
  | bool (b : Bool)
deriving DecidableEq

/-- A data frame: an ordered list of named columns. -/
abbrev DFrame := List (String × List Cell)

/-- Look a column up by name. -/
def getCol (df : DFrame) (name : String) : Option (List Cell) :=
  (df.find? (fun p => decide (p.1 = name))).map Prod.snd

/-- Number of rows of a data frame (length of its first column). -/
def dfRows (df : DFrame) : Nat :=
  match df with
  | [] => 0
  | c :: _ => c.2.length

/-- Column assignment `df[name] = vals`: replace the column in place when the
name already exists, otherwise append the new column at the end. -/
def setCol (df : DFrame) (name : String) (vals : List Cell) : DFrame :=
  if name ∈ df.map Prod.fst then
    df.map (fun p => if p.1 = name then (p.1, vals) else p)
  else df ++ [(name, vals)]

/-- Scalar column assignment `df[name] = c`: the scalar is broadcast to every
row of the frame. -/
def setScalarCol (df : DFrame) (name : String) (c : Cell) : DFrame :=
  setCol df name (List.replicate (dfRows df) c)

/-- File paths, as lists of characters. -/
abbrev FPath := List Char

/-- Whether the first list is an initial segment of the second. -/
def leadsWith : List Char → List Char → Bool
  | [], _ => true
  | _ :: _, [] => false
  | a :: as, b :: bs => decide (a = b) && leadsWith as bs

/-- Whether `sep` occurs as a contiguous run inside the second list. -/
def containsSub (sep : List Char) : List Char → Bool
  | [] => leadsWith sep []
  | c :: rest => leadsWith sep (c :: rest) || containsSub sep rest

/-- The part of the list strictly before the first occurrence of `sep`, or the
whole list when `sep` does not occur: the value of
`s.split(sep)[0]` in Python for a non-empty separator. -/
def beforeSep (sep : List Char) : List Char → List Char
  | [] => []
  | c :: rest => if leadsWith sep (c :: rest) then [] else c :: beforeSep sep rest

/-- The literal separator `'ref_matrix_processed.npz'` of line 45. -/
def refMatrixToken : FPath := "ref_matrix_processed.npz".toList

/-- Suffix appended to the stem to name the hash-to-index artifact. -/
def hashSuffix : FPath := "hash_to_col_idx.pkl".toList

/-- Suffix appended to the stem to name the processed-organism artifact. -/
def orgSuffix : FPath := "processed_org_idx.csv".toList

/-- Mirrors line 45: `ref_matrix.split('ref_matrix_processed.npz')[0]`. -/
def refStem (ref : FPath) : FPath := beforeSep refMatrixToken ref

/-- Mirrors line 46: the hash-to-index artifact path. -/
def hash_to_idx_file (ref : FPath) : FPath := refStem ref ++ hashSuffix

/-- Mirrors line 47: the processed-organism artifact path. -/
def processed_org_file (ref : FPath) : FPath := refStem ref ++ orgSuffix

/-- Keys of an association list (the dictionary keys). -/
def keysOf (l : List (Nat × Nat)) : List Nat := l.map Prod.fst

/-- Dictionary lookup in an association list (total, defaulting to 0; in the
script every lookup key is known to be present). -/
def lookupD (l : List (Nat × Nat)) (k : Nat) : Nat :=
  ((l.find? (fun p => decide (p.1 = k))).map Prod.snd).getD 0

/-- `np.intersect1d`: the sorted list of unique values present in both. -/
def intersect1d (a b : List Nat) : List Nat :=
  List.insertionSort (· ≤ ·) ((a.filter (fun x => decide (x ∈ b))).dedup)

/-- Mirrors lines 66-75: initialize a zero vector of length `K = len(keys)`,
then for every hash in the intersection of the sample hashes and the training
dictionary set `vector[hash_to_idx[sh]] = sample_hashes[sh]`. -/
def sample_vector (hash_to_idx sample_hashes : List (Nat × Nat)) : List Nat :=
  let K := hash_to_idx.length
  let common := intersect1d (keysOf sample_hashes) (keysOf hash_to_idx)
  common.foldl
    (fun v sh => v.set (lookupD hash_to_idx sh) (lookupD sample_hashes sh))
    (List.replicate K 0)

/-- The `ValueError`s the script can raise, with the data interpolated into
each message. -/
inductive RunError where
  | configError (msg : String)
  | missingInput (desc : String) (file : FPath)
  | scaleMismatch (organism : Cell) (others : Nat)
deriving DecidableEq

/-- The parsed CLI arguments. `argparse` with `type=int` and `type=float`
guarantees the types; defaults are `ani_thresh=0.95`, `significance=0.99`,
`min_coverage=1`. -/
structure Args where
  ref_matrix : FPath
  ksize : Int
  sample_file : FPath
  ani_thresh : ℚ
  significance : ℚ
  min_coverage : ℚ
  outfile : FPath

/-- Mirrors lines 37-42. The `isinstance(ksize, int)` check is vacuous here
because `argparse` already produced an integer, exactly as in the script;
only the `min_coverage` range check can fire. -/
def paramChecks (args : Args) : Except RunError Unit :=
  if args.min_coverage < 0 ∨ args.min_coverage > 1 then
    .error (.configError "min_coverage must be between 0 and 1.")
  else .ok ()

/-- Mirrors lines 49-56: the three existence checks, in source order. -/
def fileChecks (fs : FPath → Bool) (ref hfile ofile : FPath) : Except RunError Unit :=
  if fs ref = false then .error (.missingInput "Reference matrix file" ref)
  else if fs hfile = false then .error (.missingInput "Hash to index file" hfile)
  else if fs ofile = false then .error (.missingInput "Processed organism file" ofile)
  else .ok ()

/-- The reference matrix (opaque to the orchestration script: it is only
passed through to `hypothesis_recovery`). -/
abbrev RefMatrix := List (List ℚ)

/-- The artifacts the script loads (lines 59-64 and 77-81), provided as a
parameter: `num_exclusive` is derived as `len(list(hashes))`. -/
structure LoadedData where
  reference_matrix : RefMatrix
  hash_to_idx : List (Nat × Nat)
  organism_data : DFrame
  sample_hashes : List (Nat × Nat)
  sample_scale : Int
  num_sample_kmers : Int

/-- Signature of the external `hr.hypothesis_recovery` (reference matrix,
sample vector, ksize, significance, ani_thresh, min_coverage), returning the
recovery data frame and the nontrivial-overlap flags. -/
abbrev HRFn := RefMatrix → List Nat → Int → ℚ → ℚ → ℚ → DFrame × List Bool

/-- Numeric view of a cell holding an integer scale factor. -/
def cellInt : Cell → Int
  | .int z => z
  | _ => 0

/-- Mirrors lines 90-92: the organism names at the indices where
`|sample_scale_factor - genome_scale_factor|` is nonzero. -/
def sample_diffs (df : DFrame) : List Cell :=
  let names := (getCol df "organism_name").getD []
  let svals := (getCol df "sample_scale_factor").getD []
  let gvals := (getCol df "genome_scale_factor").getD []
  ((names.zip (svals.zip gvals)).filter
    (fun x => decide (|cellInt x.2.1 - cellInt x.2.2| ≠ 0))).map Prod.fst

/-- Mirrors lines 93-95: raise when `sample_diffs` is non-empty, reporting
`sample_diffs[0]` and `len(sample_diffs) - 1` in the message. -/
def scaleCheck (df : DFrame) : Except RunError Unit :=
  match sample_diffs df with
  | [] => .ok ()
  | d :: rest => .error (.scaleMismatch d rest.length)

/-- Mirrors lines 84-87: copy the organism data and append the three
sample-level scalar columns. -/
def buildStage1 (df : DFrame) (num_kmers : Int) (num_unique : Nat)
    (sscale : Int) : DFrame :=
  setScalarCol (setScalarCol (setScalarCol df
    "num_total_kmers_in_sample_sketch" (.int num_kmers))
    "num_exclusive_kmers_in_sample_sketch" (.int num_unique))
    "sample_scale_factor" (.int sscale)

/-- Mirrors lines 106-109: append every column of the recovery frame. -/
def addHypCols (df : DFrame) (hyp : DFrame) : DFrame :=
  hyp.foldl (fun acc c => setCol acc c.1 c.2) df

/-- The whole orchestration after argument parsing: parameter validation,
companion path derivation, existence checks, sample-vector construction,
scale-consistency gate, hypothesis recovery, output-frame assembly
(lines 37-114 of `run_YACHT.py`). -/
def runYACHT (args : Args) (fs : FPath → Bool) (d : LoadedData) (hrFn : HRFn) :
    Except RunError DFrame :=
  match paramChecks args with
  | .error e => .error e
  | .ok _ =>
    match fileChecks fs args.ref_matrix (hash_to_idx_file args.ref_matrix)
        (processed_org_file args.ref_matrix) with
    | .error e => .error e
    | .ok _ =>
      let sv := sample_vector d.hash_to_idx d.sample_hashes
      let num_unique := d.sample_hashes.length
      let df1 := buildStage1 d.organism_data d.num_sample_kmers num_unique
        d.sample_scale
      match scaleCheck df1 with
      | .error e => .error e
      | .ok _ =>
        let df2 := setScalarCol df1 "min_coverage" (.rat args.min_coverage)
        let hr := hrFn d.reference_matrix sv args.ksize args.significance
          args.ani_thresh args.min_coverage
        let df3 := setCol df2 "nontrivial_overlap" (hr.2.map Cell.bool)
        .ok (addHypCols df3 hr.1)

/-- Concrete fixture: a file system on which every path exists. -/
def fsAll : FPath → Bool := fun _ => true

/-- Concrete fixture: a file system on which no path exists. -/
def fsNone : FPath → Bool := fun _ => false

/-- Concrete fixture: a hypothesis-recovery engine returning no columns. -/
def hrEmpty : HRFn := fun _ _ _ _ _ _ => ([], [])

/-- Concrete fixture: a two-organism recovery engine, index-aligned. -/
def hrTwo : HRFn := fun _ _ _ _ _ _ =>
  ([("in_sample_est", [Cell.int 1, Cell.int 0])], [true, false])

/-- Concrete fixture: loaded data with no organisms and no hashes. -/
def dEmpty : LoadedData :=
  { reference_matrix := []
    hash_to_idx := []
    organism_data := []
    sample_hashes := []
    sample_scale := 1000
    num_sample_kmers := 0 }

/-- Concrete fixture: a two-organism metadata frame with matching scales. -/
def orgDF : DFrame :=
  [("organism_name", [Cell.str "orgA", Cell.str "orgB"]),
   ("genome_scale_factor", [Cell.int 1000, Cell.int 1000])]

/-- Concrete fixture: a two-organism metadata frame whose first organism has a
mismatching genome scale factor. -/
def orgDFBad : DFrame :=
  [("organism_name", [Cell.str "orgA", Cell.str "orgB"]),
   ("genome_scale_factor", [Cell.int 2000, Cell.int 1000])]

/-- Concrete fixture: consistent loaded data for two organisms. -/
def dGood : LoadedData :=
  { reference_matrix := []
    hash_to_idx := [(1, 0), (2, 1), (3, 2), (4, 3), (5, 4)]
    organism_data := orgDF
    sample_hashes := [(1, 3), (2, 2)]
    sample_scale := 1000
    num_sample_kmers := 5 }

/-- Concrete fixture: loaded data with one mismatching scale factor. -/
def dBadScale : LoadedData :=
  { dGood with organism_data := orgDFBad }

/-- Concrete fixture: well-formed CLI arguments. -/
def argsGood : Args :=
  { ref_matrix := "gtdb_ref_matrix_processed.npz".toList
    ksize := 31
    sample_file := "sample.sig".toList
    ani_thresh := 1
    significance := 1
    min_coverage := 1
    outfile := "result.csv".toList }

/-- Concrete fixture: arguments with `min_coverage` out of range. -/
def argsBadCoverage : Args := { argsGood with min_coverage := 2 }

/-- Concrete fixture: arguments with `ani_thresh` and `significance` above 1
and a non-positive `ksize`. -/
def argsOutOfRange : Args :=
  { argsGood with ani_thresh := 2, significance := 2, ksize := 0 }

/-- Modelled from the spec: the per-organism hypothesis tester lives in
`src/hypothesis_recovery_src`, which is not among the sources; the decision
threshold is reconstructed from section 4.3 of the design. Binomial
probability mass at `k` for `Binomial(n, p)`, over the rationals. -/
def binomPMF (n : Nat) (p : ℚ) (k : Nat) : ℚ :=
  (n.choose k : ℚ) * p ^ k * (1 - p) ^ (n - k)

/-- Modelled from the spec: upper-tail probability `P[Binomial(n, p) ≥ t]`. -/
def binomTail (n : Nat) (p : ℚ) (t : Nat) : ℚ :=
  (((List.range (n + 1)).drop t).map (binomPMF n p)).sum

/-- Fuel-bounded linear search for the least `t ≥ start` satisfying `P`;
returns `start + fuel` when no tested value satisfies `P`. -/
def leastT (P : Nat → Bool) : Nat → Nat → Nat
  | t, 0 => t
  | t, fuel + 1 => if P t then t else leastT P (t + 1) fuel

/-- Modelled from the spec: the decision threshold `t_g` is the smallest
integer `t` such that `P[Binomial(n_eff, p0) ≥ t] ≤ 1 - significance`, where
`n_eff = floor(n_g * min_coverage)` is the coverage-adjusted sketch size. -/
def t_g (n_g : Nat) (p0 min_coverage significance : ℚ) : Nat :=
  let m := (((n_g : ℚ) * min_coverage).floor).toNat
  leastT (fun t => decide (binomTail m p0 t ≤ 1 - significance)) 0 (m + 1)

/-! ### Basic facts about the path-splitting helpers -/

theorem leadsWith_iff (sep : List Char) : ∀ s, leadsWith sep s = true ↔ ∃ t, s = sep ++ t := by
  induction sep with
  | nil => intro s; simp [leadsWith]
  | cons a as ih =>
    intro s
    cases s with
    | nil => simp [leadsWith]
    | cons b bs =>
      simp only [leadsWith, Bool.and_eq_true, decide_eq_true_eq, ih, List.cons_append]
      constructor
      · rintro ⟨rfl, t, rfl⟩; exact ⟨t, rfl⟩
      · rintro ⟨t, ht⟩
        injection ht with h1 h2
        exact ⟨h1.symm, t, h2⟩

theorem containsSub_iff (sep : List Char) :
    ∀ s, containsSub sep s = true ↔ ∃ a b, s = a ++ sep ++ b := by
  intro s
  induction s with
  | nil =>
    simp only [containsSub, leadsWith_iff]
    constructor
    · rintro ⟨t, ht⟩
      exact ⟨[], t, by simpa using ht⟩
    · rintro ⟨a, b, hab⟩
      rw [List.append_assoc] at hab
      rcases List.append_eq_nil.mp hab.symm with ⟨rfl, h2⟩
      rcases List.append_eq_nil.mp h2 with ⟨rfl, rfl⟩
      exact ⟨[], rfl⟩
  | cons c cs ih =>
    simp only [containsSub, Bool.or_eq_true, leadsWith_iff, ih]
    constructor
    · rintro (⟨t, ht⟩ | ⟨a, b, hab⟩)
      · exact ⟨[], t, by simpa using ht⟩
      · exact ⟨c :: a, b, by simp [hab]⟩
    · rintro ⟨a, b, hab⟩
      cases a with
      | nil => exact Or.inl ⟨b, by simpa using hab⟩
      | cons a0 as =>
        simp only [List.cons_append, List.append_assoc] at hab
        injection hab with h1 h2
        exact Or.inr ⟨as, b, by simp [h2]⟩

theorem beforeSep_of_not_contains (sep : List Char) :
    ∀ s, containsSub sep s = false → beforeSep sep s = s := by
  intro s
  induction s with
  | nil => intro _; rfl
  | cons c cs ih =>
    intro h
    simp only [containsSub, Bool.or_eq_false_iff] at h
    simp only [beforeSep, h.1, Bool.false_eq_true, if_false]
    rw [ih h.2]

theorem beforeSep_append_of_contains (sep : List Char) :
    ∀ s, containsSub sep s = true → ∃ b, s = beforeSep sep s ++ sep ++ b := by
  intro s
  induction s with
  | nil =>
    intro h
    simp only [containsSub] at h
    rcases (leadsWith_iff sep []).mp h with ⟨t, ht⟩
    rcases List.append_eq_nil.mp ht.symm with ⟨rfl, rfl⟩
    exact ⟨[], rfl⟩
  | cons c cs ih =>
    intro h
    by_cases hl : leadsWith sep (c :: cs) = true
    · rcases (leadsWith_iff sep (c :: cs)).mp hl with ⟨t, ht⟩
      refine ⟨t, ?_⟩
      have hb : beforeSep sep (c :: cs) = [] := by simp [beforeSep, hl]
      rw [hb]
      simpa using ht
    · have hc : containsSub sep cs = true := by
        simp only [containsSub, Bool.or_eq_true] at h
        tauto
      rcases ih hc with ⟨b, hb⟩
      refine ⟨b, ?_⟩
      simp only [beforeSep, hl, Bool.false_eq_true, if_false, List.cons_append,
        List.append_assoc] at *
      exact congrArg (c :: ·) hb

theorem beforeSep_minimal (sep : List Char) :
    ∀ s a b, s = a ++ sep ++ b → (beforeSep sep s).length ≤ a.length := by
  intro s
  induction s with
  | nil => intro a b _; simp [beforeSep]
  | cons c cs ih =>
    intro a b hab
    by_cases hl : leadsWith sep (c :: cs) = true
    · simp [beforeSep, hl]
    · cases a with
      | nil =>
        exfalso
        apply hl
        exact (leadsWith_iff sep (c :: cs)).mpr ⟨b, by simpa using hab⟩
      | cons a0 as =>
        simp only [List.cons_append, List.append_assoc] at hab
        injection hab with h1 h2
        simp only [beforeSep, hl, Bool.false_eq_true, if_false, List.length_cons]
        have := ih as b (by rw [h2, List.append_assoc])
        omega

/-- C9: the companion artifact paths are obtained by taking the portion of the
`--ref_matrix` path before the first occurrence of the literal
`'ref_matrix_processed.npz'` and appending `'hash_to_col_idx.pkl'` and
`'processed_org_idx.csv'`; when the separator does not occur, the suffixes are
appended to the whole path. -/
theorem companion_paths_spec (ref : FPath) :
    hash_to_idx_file ref = beforeSep refMatrixToken ref ++ hashSuffix ∧
    processed_org_file ref = beforeSep refMatrixToken ref ++ orgSuffix ∧
    (containsSub refMatrixToken ref = false → refStem ref = ref) ∧
    (containsSub refMatrixToken ref = true →
      ∃ b, ref = refStem ref ++ refMatrixToken ++ b ∧
        ∀ a c, ref = a ++ refMatrixToken ++ c → (refStem ref).length ≤ a.length) := by
  refine ⟨rfl, rfl, beforeSep_of_not_contains _ ref, fun h => ?_⟩
  rcases beforeSep_append_of_contains _ ref h with ⟨b, hb⟩
  exact ⟨b, hb, fun a c hac => beforeSep_minimal _ ref a c hac⟩

/-- Witness for C9 at the concrete path `gtdb_ref_matrix_processed.npz`. -/
theorem companion_paths_spec_witness :
    ∃ b, argsGood.ref_matrix = refStem argsGood.ref_matrix ++ refMatrixToken ++ b := by
  rcases (companion_paths_spec argsGood.ref_matrix).2.2.2 (by decide) with ⟨b, hb, _⟩
  exact ⟨b, hb⟩

/-! ### Parameter validation and fail-fast behaviour -/

theorem paramChecks_ok_of_range {args : Args} (h0 : 0 ≤ args.min_coverage)
    (h1 : args.min_coverage ≤ 1) : paramChecks args = .ok () := by
  unfold paramChecks
  rw [if_neg]
  push_neg
  exact ⟨h0, h1⟩

theorem paramChecks_error_of_out_of_range {args : Args}
    (h : args.min_coverage < 0 ∨ args.min_coverage > 1) :
    paramChecks args =
      .error (.configError "min_coverage must be between 0 and 1.") := by
  unfold paramChecks
  rw [if_pos h]

/-- C10: the three existence checks run in source order (reference matrix,
hash-to-index, processed organism); the first failing check determines the
error, which names exactly the one offending file, and that error is the
run's result whatever the loaded data or the recovery engine. -/
theorem fileChecks_first_missing (fs : FPath → Bool) (ref hfile ofile : FPath) :
    (fs ref = false →
      fileChecks fs ref hfile ofile =
        .error (.missingInput "Reference matrix file" ref)) ∧
    (fs ref = true → fs hfile = false →
      fileChecks fs ref hfile ofile =
        .error (.missingInput "Hash to index file" hfile)) ∧
    (fs ref = true → fs hfile = true → fs ofile = false →
      fileChecks fs ref hfile ofile =
        .error (.missingInput "Processed organism file" ofile)) ∧
    (fs ref = true → fs hfile = true → fs ofile = true →
      fileChecks fs ref hfile ofile = .ok ()) ∧
    (∀ (args : Args) (d : LoadedData) (hrFn : HRFn) (e : RunError),
      0 ≤ args.min_coverage → args.min_coverage ≤ 1 →
      fileChecks fs args.ref_matrix (hash_to_idx_file args.ref_matrix)
        (processed_org_file args.ref_matrix) = .error e →
      runYACHT args fs d hrFn = .error e) := by
  refine ⟨?_, ?_, ?_, ?_, ?_⟩
  · intro h; simp [fileChecks, h]
  · intro h1 h2; simp [fileChecks, h1, h2]
  · intro h1 h2 h3; simp [fileChecks, h1, h2, h3]
  · intro h1 h2 h3; simp [fileChecks, h1, h2, h3]
  · intro args d hrFn e h0 h1 hfc
    simp only [runYACHT, paramChecks_ok_of_range h0 h1, hfc]

/-- Witness for C10: with every artifact missing, the reported error names
only the reference matrix file, the earliest check in source order. -/
theorem fileChecks_first_missing_witness :
    fileChecks fsNone argsGood.ref_matrix (hash_to_idx_file argsGood.ref_matrix)
      (processed_org_file argsGood.ref_matrix) =
      .error (.missingInput "Reference matrix file" argsGood.ref_matrix) :=
  (fileChecks_first_missing fsNone argsGood.ref_matrix
    (hash_to_idx_file argsGood.ref_matrix)
    (processed_org_file argsGood.ref_matrix)).1 rfl

/-- C4: a run with `min_coverage` outside `[0,1]` aborts with the
configuration error whatever the file system, the loaded data and the
recovery engine (so before any artifact is read); values inside `[0,1]`,
including both endpoints, pass the check. -/
theorem min_coverage_validation (args : Args) :
    ((args.min_coverage < 0 ∨ args.min_coverage > 1) →
      ∀ (fs : FPath → Bool) (d : LoadedData) (hrFn : HRFn),
        runYACHT args fs d hrFn =
          .error (.configError "min_coverage must be between 0 and 1.")) ∧
    (0 ≤ args.min_coverage → args.min_coverage ≤ 1 →
      paramChecks args = .ok ()) := by
  constructor
  · intro h fs d hrFn
    simp only [runYACHT, paramChecks_error_of_out_of_range h]
  · intro h0 h1
    exact paramChecks_ok_of_range h0 h1

/-- Witness for C4 at `min_coverage = 2`. -/
theorem min_coverage_validation_witness :
    (argsBadCoverage.min_coverage < 0 ∨ argsBadCoverage.min_coverage > 1) ∧
    runYACHT argsBadCoverage fsAll dEmpty hrEmpty =
      .error (.configError "min_coverage must be between 0 and 1.") :=
  ⟨by decide,
    (min_coverage_validation argsBadCoverage).1 (by decide) fsAll dEmpty hrEmpty⟩

/-- C5: when any of the three required artifacts is absent, the run aborts
with an error identifying a missing file, and the result does not depend on
the loaded data or the recovery engine (nothing is loaded or computed). -/
theorem missing_input_fail_fast (args : Args) (fs : FPath → Bool)
    (h0 : 0 ≤ args.min_coverage) (h1 : args.min_coverage ≤ 1)
    (hmiss : fs args.ref_matrix = false ∨
      fs (hash_to_idx_file args.ref_matrix) = false ∨
      fs (processed_org_file args.ref_matrix) = false) :
    ∃ desc file, fs file = false ∧
      (file = args.ref_matrix ∨ file = hash_to_idx_file args.ref_matrix ∨
        file = processed_org_file args.ref_matrix) ∧
      ∀ (d : LoadedData) (hrFn : HRFn),
        runYACHT args fs d hrFn = .error (.missingInput desc file) := by
  cases href : fs args.ref_matrix with
  | false =>
    refine ⟨"Reference matrix file", args.ref_matrix, href, Or.inl rfl,
      fun d hrFn => ?_⟩
    simp only [runYACHT, paramChecks_ok_of_range h0 h1]
    simp [fileChecks, href]
  | true =>
    cases hh : fs (hash_to_idx_file args.ref_matrix) with
    | false =>
      refine ⟨"Hash to index file", hash_to_idx_file args.ref_matrix, hh,
        Or.inr (Or.inl rfl), fun d hrFn => ?_⟩
      simp only [runYACHT, paramChecks_ok_of_range h0 h1]
      simp [fileChecks, href, hh]
    | true =>
      have ho : fs (processed_org_file args.ref_matrix) = false := by
        rcases hmiss with h | h | h
        · rw [href] at h; cases h
        · rw [hh] at h; cases h
        · exact h
      refine ⟨"Processed organism file", processed_org_file args.ref_matrix, ho,
        Or.inr (Or.inr rfl), fun d hrFn => ?_⟩
      simp only [runYACHT, paramChecks_ok_of_range h0 h1]
      simp [fileChecks, href, hh, ho]

/-- Witness for C5 on a file system where nothing exists. -/
theorem missing_input_fail_fast_witness :
    ∃ desc file, fsNone file = false ∧
      (file = argsGood.ref_matrix ∨ file = hash_to_idx_file argsGood.ref_matrix ∨
        file = processed_org_file argsGood.ref_matrix) ∧
      ∀ (d : LoadedData) (hrFn : HRFn),
        runYACHT argsGood fsNone d hrFn = .error (.missingInput desc file) :=
  missing_input_fail_fast argsGood fsNone (by decide) (by decide) (Or.inl rfl)

/-- C3 fails on the code: no check constrains `ani_thresh`, `significance` or
the sign of `ksize`, so a run with all three out of range still reaches the
per-organism phase and succeeds. -/
theorem param_range_counterexample :
    argsOutOfRange.ani_thresh > 1 ∧ argsOutOfRange.significance > 1 ∧
      argsOutOfRange.ksize ≤ 0 ∧
      (runYACHT argsOutOfRange fsAll dEmpty hrEmpty).isOk = true := by
  refine ⟨by decide, by decide, by decide, by decide⟩

/-- C3 amended: the only parameter-range gate on the path to per-organism
testing is `min_coverage ∈ [0,1]` (`ksize` is an integer by the CLI type);
every run that proceeds satisfies it, and no validation constrains
`ani_thresh`, `significance`, or the sign of `ksize`. -/
theorem proceeds_implies_min_coverage_range (args : Args) (fs : FPath → Bool)
    (d : LoadedData) (hrFn : HRFn)
    (h : (runYACHT args fs d hrFn).isOk = true) :
    0 ≤ args.min_coverage ∧ args.min_coverage ≤ 1 := by
  by_cases hlt : args.min_coverage < 0 ∨ args.min_coverage > 1
  · rw [runYACHT, paramChecks_error_of_out_of_range hlt] at h
    simp [Except.isOk, Except.toBool] at h
  · push_neg at hlt
    exact hlt

/-- Witness for the amended C3 on a complete successful run. -/
theorem proceeds_implies_min_coverage_range_witness :
    0 ≤ argsGood.min_coverage ∧ argsGood.min_coverage ≤ 1 :=
  proceeds_implies_min_coverage_range argsGood fsAll dEmpty hrEmpty (by decide)

/-! ### The sample-vector builder -/

theorem foldl_set_length (f g : Nat → Nat) :
    ∀ (ups : List Nat) (v : List Nat),
      (ups.foldl (fun w sh => w.set (f sh) (g sh)) v).length = v.length := by
  intro ups
  induction ups with
  | nil => intro v; rfl
  | cons u us ih =>
    intro v
    simp only [List.foldl_cons, ih, List.length_set]

theorem foldl_set_getElem_notin (f g : Nat → Nat) :
    ∀ (ups : List Nat) (v : List Nat) (i : Nat), (∀ u ∈ ups, f u ≠ i) →
      (ups.foldl (fun w sh => w.set (f sh) (g sh)) v)[i]? = v[i]? := by
  intro ups
  induction ups with
  | nil => intro v i _; rfl
  | cons u us ih =>
    intro v i hne
    simp only [List.foldl_cons]
    rw [ih _ _ (fun w hw => hne w (List.mem_cons_of_mem _ hw))]
    exact List.getElem?_set_ne (hne u (List.mem_cons_self _ _))

theorem foldl_set_getElem_unique (f g : Nat → Nat) :
    ∀ (ups : List Nat), ups.Nodup → ∀ (v : List Nat) (u : Nat), u ∈ ups →
      f u < v.length → (∀ w ∈ ups, w ≠ u → f w ≠ f u) →
      (ups.foldl (fun w sh => w.set (f sh) (g sh)) v)[f u]? = some (g u) := by
  intro ups
  induction ups with
  | nil => intro _ v u hu; cases hu
  | cons u0 us ih =>
    intro hnd v u hu hflt hother
    rw [List.nodup_cons] at hnd
    rcases List.mem_cons.mp hu with rfl | hmem
    · simp only [List.foldl_cons]
      rw [foldl_set_getElem_notin f g us]
      · rw [List.getElem?_set_eq_of_lt _ hflt]
      · intro w hw
        exact hother w (List.mem_cons_of_mem _ hw)
          (fun he => hnd.1 (he ▸ hw))
    · simp only [List.foldl_cons]
      exact ih hnd.2 _ u hmem (by simpa [List.length_set] using hflt)
        (fun w hw hwne => hother w (List.mem_cons_of_mem _ hw) hwne)

theorem mem_keysOf {l : List (Nat × Nat)} {k : Nat} :
    k ∈ keysOf l ↔ ∃ v, (k, v) ∈ l := by
  simp only [keysOf, List.mem_map]
  constructor
  · rintro ⟨p, hp, rfl⟩
    exact ⟨p.2, hp⟩
  · rintro ⟨v, hv⟩
    exact ⟨(k, v), hv, rfl⟩

theorem lookupD_eq_of_mem {l : List (Nat × Nat)} (hnd : (keysOf l).Nodup)
    {k v : Nat} (h : (k, v) ∈ l) : lookupD l k = v := by
  induction l with
  | nil => cases h
  | cons p ps ih =>
    simp only [keysOf, List.map_cons, List.nodup_cons] at hnd
    rcases List.mem_cons.mp h with heq | hmem
    · rw [← heq]
      simp [lookupD, List.find?]
    · have hk : ¬(p.1 = k) := by
        intro he
        apply hnd.1
        rw [he]
        exact List.mem_map_of_mem Prod.fst hmem
      have hd : (decide (p.1 = k)) = false := by simp [hk]
      simp only [lookupD, List.find?, hd]
      exact ih (by simpa [keysOf] using hnd.2) hmem

theorem lookupD_ne_of_ne {l : List (Nat × Nat)} (hk : (keysOf l).Nodup)
    (hv : (l.map Prod.snd).Nodup) {k1 k2 : Nat} (h1 : k1 ∈ keysOf l)
    (h2 : k2 ∈ keysOf l) (hne : k1 ≠ k2) : lookupD l k1 ≠ lookupD l k2 := by
  obtain ⟨v1, hm1⟩ := mem_keysOf.mp h1
  obtain ⟨v2, hm2⟩ := mem_keysOf.mp h2
  rw [lookupD_eq_of_mem hk hm1, lookupD_eq_of_mem hk hm2]
  have hv2 : List.Pairwise (fun a b : Nat × Nat => a.2 ≠ b.2) l :=
    List.pairwise_map.mp hv
  have hsym : Symmetric (fun a b : Nat × Nat => a.2 ≠ b.2) :=
    fun _ _ h he => h he.symm
  exact hv2.forall hsym hm1 hm2 (fun he => hne (congrArg Prod.fst he))

theorem mem_intersect1d {a b : List Nat} {x : Nat} :
    x ∈ intersect1d a b ↔ x ∈ a ∧ x ∈ b := by
  simp [intersect1d, List.mem_insertionSort, List.mem_dedup, List.mem_filter]

theorem nodup_intersect1d (a b : List Nat) : (intersect1d a b).Nodup :=
  ((List.perm_insertionSort _ _).nodup_iff).mpr (List.nodup_dedup _)

/-- C1: the sample vector has length `K`; every hash present in both the
sample sketch and the hash index contributes its multiplicity at its index;
every other entry is zero; and an empty intersection yields the all-zero
vector (no error: the builder is total). Hypotheses: dictionary keys are
unique on both sides, and the hash index is an injective map into `[0,K)`,
as the spec requires of `HashIndex`. -/
theorem sample_vector_spec (hash_to_idx sample_hashes : List (Nat × Nat))
    (hknd : (keysOf hash_to_idx).Nodup)
    (hvnd : (hash_to_idx.map Prod.snd).Nodup)
    (hsnd : (keysOf sample_hashes).Nodup)
    (hlt : ∀ p ∈ hash_to_idx, p.2 < hash_to_idx.length) :
    (sample_vector hash_to_idx sample_hashes).length = hash_to_idx.length ∧
    (∀ hsh i m, (hsh, i) ∈ hash_to_idx → (hsh, m) ∈ sample_hashes →
      (sample_vector hash_to_idx sample_hashes)[i]? = some m) ∧
    (∀ i, i < hash_to_idx.length →
      (∀ p ∈ hash_to_idx, p.1 ∈ keysOf sample_hashes → p.2 ≠ i) →
      (sample_vector hash_to_idx sample_hashes)[i]? = some 0) ∧
    ((∀ k ∈ keysOf sample_hashes, k ∉ keysOf hash_to_idx) →
      sample_vector hash_to_idx sample_hashes =
        List.replicate hash_to_idx.length 0) := by
  have hcommon := nodup_intersect1d (keysOf sample_hashes) (keysOf hash_to_idx)
  refine ⟨?_, ?_, ?_, ?_⟩
  · simp only [sample_vector]
    rw [foldl_set_length (lookupD hash_to_idx) (lookupD sample_hashes)]
    exact List.length_replicate _ _
  · intro hsh i m hmemh hmems
    have hks : hsh ∈ keysOf sample_hashes := mem_keysOf.mpr ⟨m, hmems⟩
    have hkh : hsh ∈ keysOf hash_to_idx := mem_keysOf.mpr ⟨i, hmemh⟩
    have hu : hsh ∈ intersect1d (keysOf sample_hashes) (keysOf hash_to_idx) :=
      mem_intersect1d.mpr ⟨hks, hkh⟩
    have hfi : lookupD hash_to_idx hsh = i := lookupD_eq_of_mem hknd hmemh
    have hgm : lookupD sample_hashes hsh = m := lookupD_eq_of_mem hsnd hmems
    have hres := foldl_set_getElem_unique (lookupD hash_to_idx)
      (lookupD sample_hashes) _ hcommon
      (List.replicate hash_to_idx.length 0) hsh hu
      (by rw [hfi, List.length_replicate]; exact hlt _ hmemh)
      (fun w hw hwne => lookupD_ne_of_ne hknd hvnd
        (mem_intersect1d.mp hw).2 hkh hwne)
    rw [hfi, hgm] at hres
    simpa [sample_vector] using hres
  · intro i hi hno
    have hni : ∀ u ∈ intersect1d (keysOf sample_hashes) (keysOf hash_to_idx),
        lookupD hash_to_idx u ≠ i := by
      intro u hu he
      obtain ⟨hus, huh⟩ := mem_intersect1d.mp hu
      obtain ⟨w, hw⟩ := mem_keysOf.mp huh
      have hlw := lookupD_eq_of_mem hknd hw
      exact hno (u, w) hw hus (hlw.symm.trans he)
    have hres := foldl_set_getElem_notin (lookupD hash_to_idx)
      (lookupD sample_hashes) _ (List.replicate hash_to_idx.length 0) i hni
    rw [List.getElem?_replicate, if_pos hi] at hres
    simpa [sample_vector] using hres
  · intro hdis
    have hfil : (keysOf sample_hashes).filter
        (fun x => decide (x ∈ keysOf hash_to_idx)) = [] := by
      rw [List.filter_eq_nil_iff]
      intro a ha
      simpa using hdis a ha
    have hcom : intersect1d (keysOf sample_hashes) (keysOf hash_to_idx) = [] := by
      rw [intersect1d, hfil]
      rfl
    simp [sample_vector, hcom]

/-- Witness for C1 on the worked example of the spec: hash 1 has
multiplicity 3 and index 0, so entry 0 of the sample vector is 3. -/
theorem sample_vector_spec_witness :
    ((keysOf dGood.hash_to_idx).Nodup ∧ (1, 0) ∈ dGood.hash_to_idx ∧
      (1, 3) ∈ dGood.sample_hashes) ∧
    (sample_vector dGood.hash_to_idx dGood.sample_hashes)[0]? = some 3 :=
  ⟨by decide,
    (sample_vector_spec dGood.hash_to_idx dGood.sample_hashes (by decide)
      (by decide) (by decide) (by decide)).2.1 1 0 3 (by decide) (by decide)⟩

/-! ### Data-frame lemmas: column assignment and lookup -/

theorem find?_map_keepFst (f : String × List Cell → String × List Cell)
    (hf : ∀ p, (f p).1 = p.1) (q : String) :
    ∀ df : DFrame, (df.map f).find? (fun p => decide (p.1 = q)) =
      (df.find? (fun p => decide (p.1 = q))).map f := by
  intro df
  induction df with
  | nil => rfl
  | cons p ps ih =>
    by_cases hq : p.1 = q
    · rw [List.map_cons, List.find?_cons_of_pos _ (by simp [hf, hq]),
        List.find?_cons_of_pos _ (by simp [hq])]
      rfl
    · rw [List.map_cons, List.find?_cons_of_neg _ (by simp [hf, hq]),
        List.find?_cons_of_neg _ (by simp [hq])]
      exact ih

theorem getCol_setCol_ne (df : DFrame) (name qname : String) (vals : List Cell)
    (h : qname ≠ name) : getCol (setCol df name vals) qname = getCol df qname := by
  unfold setCol
  by_cases hmem : name ∈ df.map Prod.fst
  · rw [if_pos hmem]
    unfold getCol
    rw [find?_map_keepFst (fun p => if p.1 = name then (p.1, vals) else p)
      (fun p => by dsimp; split <;> rfl) qname df]
    cases hf : df.find? (fun p => decide (p.1 = qname)) with
    | none => rfl
    | some p =>
      have hp : p.1 = qname := by simpa using List.find?_some hf
      have hpn : ¬(p.1 = name) := by rw [hp]; exact h
      simp [hpn]
  · rw [if_neg hmem]
    unfold getCol
    rw [List.find?_append]
    have hnone : List.find? (fun p => decide (p.1 = qname)) [(name, vals)] = none := by
      rw [List.find?_eq_none]
      intro x hx
      rw [List.mem_singleton.mp hx]
      simpa using fun he => h he.symm
    rw [hnone]
    simp

theorem find?_mapReplace_self (name : String) (vals : List Cell) :
    ∀ df : DFrame, name ∈ df.map Prod.fst →
      (df.map (fun p => if p.1 = name then (p.1, vals) else p)).find?
        (fun p => decide (p.1 = name)) = some (name, vals) := by
  intro df
  induction df with
  | nil => intro h; simp at h
  | cons p ps ih =>
    intro hmem
    by_cases hp : p.1 = name
    · rw [List.map_cons, List.find?_cons_of_pos _ (by simp [hp])]
      simp [hp]
    · have hmem2 : name ∈ ps.map Prod.fst := by
        rw [List.map_cons, List.mem_cons] at hmem
        rcases hmem with he | hm
        · exact absurd he.symm hp
        · exact hm
      rw [List.map_cons, List.find?_cons_of_neg _ (by simp [hp])]
      exact ih hmem2

theorem getCol_setCol_self (df : DFrame) (name : String) (vals : List Cell) :
    getCol (setCol df name vals) name = some vals := by
  unfold setCol
  by_cases hmem : name ∈ df.map Prod.fst
  · rw [if_pos hmem]
    unfold getCol
    rw [find?_mapReplace_self name vals df hmem]
    rfl
  · rw [if_neg hmem]
    unfold getCol
    rw [List.find?_append]
    have hnone : List.find? (fun p => decide (p.1 = name)) df = none := by
      rw [List.find?_eq_none]
      intro x hx hpx
      apply hmem
      have hx1 : x.1 = name := by simpa using hpx
      rw [← hx1]
      exact List.mem_map_of_mem Prod.fst hx
    rw [hnone, List.find?_cons_of_pos _ (by simp)]
    rfl

theorem getCol_some_mem {df : DFrame} {q : String} {vals : List Cell}
    (h : getCol df q = some vals) : ∃ p ∈ df, p.1 = q ∧ p.2 = vals := by
  unfold getCol at h
  cases hf : df.find? (fun p => decide (p.1 = q)) with
  | none => rw [hf] at h; cases h
  | some p =>
    rw [hf] at h
    refine ⟨p, List.mem_of_find?_eq_some hf, by simpa using List.find?_some hf, ?_⟩
    simpa using h

/-- Well-formed frame: the row count reads `n` and every column has exactly
`n` entries. -/
def wfDF (df : DFrame) (n : Nat) : Prop :=
  dfRows df = n ∧ ∀ c ∈ df, c.2.length = n

theorem wfDF_setCol {df : DFrame} {n : Nat} (h : wfDF df n) {name : String}
    {vals : List Cell} (hv : vals.length = n) : wfDF (setCol df name vals) n := by
  obtain ⟨hrows, hcols⟩ := h
  unfold setCol
  by_cases hmem : name ∈ df.map Prod.fst
  · rw [if_pos hmem]
    constructor
    · cases df with
      | nil => simp at hmem
      | cons p ps =>
        simp only [List.map_cons, dfRows]
        split
        · exact hv
        · exact hcols p (List.mem_cons_self _ _)
    · intro c hc
      obtain ⟨p, hp, rfl⟩ := List.mem_map.mp hc
      split
      · exact hv
      · exact hcols p hp
  · rw [if_neg hmem]
    constructor
    · cases df with
      | nil => simpa [dfRows] using hv
      | cons p ps =>
        simpa [dfRows] using hcols p (List.mem_cons_self _ _)
    · intro c hc
      rcases List.mem_append.mp hc with hcl | hcr
      · exact hcols c hcl
      · rw [List.mem_singleton.mp hcr]
        exact hv

theorem wfDF_setScalarCol {df : DFrame} {n : Nat} (h : wfDF df n) (name : String)
    (c : Cell) : wfDF (setScalarCol df name c) n := by
  unfold setScalarCol
  exact wfDF_setCol h (by rw [List.length_replicate, h.1])

/-! ### The scale-consistency gate -/

theorem mismatch_zip (s : Int) :
    ∀ (names gvals : List Cell), names.length = gvals.length →
      ((names.zip ((List.replicate names.length (Cell.int s)).zip gvals)).filter
          (fun x => decide (|cellInt x.2.1 - cellInt x.2.2| ≠ 0))).map Prod.fst =
        ((names.zip gvals).filter
          (fun x => decide (cellInt x.2 ≠ s))).map Prod.fst := by
  intro names
  induction names with
  | nil => intro gvals _; rfl
  | cons c cs ih =>
    intro gvals h
    cases gvals with
    | nil => simp at h
    | cons g gs =>
      simp only [List.length_cons] at h
      have h2 : cs.length = gs.length := by omega
      simp only [List.length_cons, List.replicate_succ, List.zip_cons_cons]
      rw [List.filter_cons, List.filter_cons]
      have hcond : (decide (|cellInt (Cell.int s) - cellInt g| ≠ 0)) =
          decide (cellInt g ≠ s) := by
        apply decide_eq_decide.mpr
        simp only [cellInt, abs_ne_zero, sub_ne_zero]
        exact ne_comm
      rw [hcond]
      by_cases hd : cellInt g ≠ s
      · rw [if_pos (by simpa using hd), if_pos (by simpa using hd)]
        simp only [List.map_cons]
        rw [ih gs h2]
      · rw [if_neg (by simpa using hd), if_neg (by simpa using hd)]
        exact ih gs h2

theorem sample_diffs_buildStage1 (org : DFrame) (nk : Int) (nu : Nat) (s : Int)
    (names gvals : List Cell)
    (hn : getCol org "organism_name" = some names)
    (hg : getCol org "genome_scale_factor" = some gvals)
    (hwf : wfDF org (dfRows org)) :
    sample_diffs (buildStage1 org nk nu s) =
      ((names.zip gvals).filter
        (fun x => decide (cellInt x.2 ≠ s))).map Prod.fst := by
  set n := dfRows org with hn0
  have hw1 := wfDF_setScalarCol hwf "num_total_kmers_in_sample_sketch" (.int nk)
  have hw2 := wfDF_setScalarCol hw1 "num_exclusive_kmers_in_sample_sketch" (.int nu)
  have hnamelen : names.length = n := by
    obtain ⟨p, hp, _, hpv⟩ := getCol_some_mem hn
    rw [← hpv]
    exact hwf.2 p hp
  have hglen : gvals.length = n := by
    obtain ⟨p, hp, _, hpv⟩ := getCol_some_mem hg
    rw [← hpv]
    exact hwf.2 p hp
  have hnames : getCol (buildStage1 org nk nu s) "organism_name" = some names := by
    unfold buildStage1 setScalarCol
    rw [getCol_setCol_ne _ _ _ _ (by decide), getCol_setCol_ne _ _ _ _ (by decide),
      getCol_setCol_ne _ _ _ _ (by decide)]
    exact hn
  have hgv : getCol (buildStage1 org nk nu s) "genome_scale_factor" = some gvals := by
    unfold buildStage1 setScalarCol
    rw [getCol_setCol_ne _ _ _ _ (by decide), getCol_setCol_ne _ _ _ _ (by decide),
      getCol_setCol_ne _ _ _ _ (by decide)]
    exact hg
  have hsv : getCol (buildStage1 org nk nu s) "sample_scale_factor" =
      some (List.replicate n (Cell.int s)) := by
    unfold buildStage1
    rw [show setScalarCol (setScalarCol (setScalarCol org
        "num_total_kmers_in_sample_sketch" (.int nk))
        "num_exclusive_kmers_in_sample_sketch" (.int nu))
        "sample_scale_factor" (.int s) =
      setCol (setScalarCol (setScalarCol org
        "num_total_kmers_in_sample_sketch" (.int nk))
        "num_exclusive_kmers_in_sample_sketch" (.int nu))
        "sample_scale_factor"
        (List.replicate n (Cell.int s)) from by rw [setScalarCol, hw2.1]]
    exact getCol_setCol_self _ _ _
  unfold sample_diffs
  rw [hnames, hsv, hgv]
  simp only [Option.getD_some]
  rw [← hnamelen]
  exact mismatch_zip s names gvals (by rw [hnamelen, hglen])

theorem runYACHT_scale_error (args : Args) (fs : FPath → Bool) (d : LoadedData)
    (hrFn : HRFn) (h0 : 0 ≤ args.min_coverage) (h1 : args.min_coverage ≤ 1)
    (hfc : fileChecks fs args.ref_matrix (hash_to_idx_file args.ref_matrix)
      (processed_org_file args.ref_matrix) = .ok ()) (e : RunError)
    (hsc : scaleCheck (buildStage1 d.organism_data d.num_sample_kmers
      d.sample_hashes.length d.sample_scale) = .error e) :
    runYACHT args fs d hrFn = .error e := by
  simp only [runYACHT, paramChecks_ok_of_range h0 h1, hfc, hsc]

theorem runYACHT_scale_ok (args : Args) (fs : FPath → Bool) (d : LoadedData)
    (hrFn : HRFn) (h0 : 0 ≤ args.min_coverage) (h1 : args.min_coverage ≤ 1)
    (hfc : fileChecks fs args.ref_matrix (hash_to_idx_file args.ref_matrix)
      (processed_org_file args.ref_matrix) = .ok ())
    (hsc : scaleCheck (buildStage1 d.organism_data d.num_sample_kmers
      d.sample_hashes.length d.sample_scale) = .ok ()) :
    runYACHT args fs d hrFn = .ok (addHypCols
      (setCol (setScalarCol (buildStage1 d.organism_data d.num_sample_kmers
          d.sample_hashes.length d.sample_scale) "min_coverage"
          (.rat args.min_coverage))
        "nontrivial_overlap"
        ((hrFn d.reference_matrix
          (sample_vector d.hash_to_idx d.sample_hashes) args.ksize
          args.significance args.ani_thresh args.min_coverage).2.map Cell.bool))
      (hrFn d.reference_matrix (sample_vector d.hash_to_idx d.sample_hashes)
        args.ksize args.significance args.ani_thresh args.min_coverage).1) := by
  simp only [runYACHT, paramChecks_ok_of_range h0 h1, hfc, hsc]

/-- C2: on the path past the file checks, a `scaleMismatch` error is raised
if and only if some organism's recorded genome scale factor differs from the
sample's scale factor; when raised, the reported organism is one of the
mismatching ones, the reported count of further mismatches satisfies
`k + 1 = total number of mismatching organisms`, and the same error is the
run's result for every recovery engine (the per-organism phase is never
reached). -/
theorem scale_mismatch_gate (args : Args) (fs : FPath → Bool) (d : LoadedData)
    (hrFn : HRFn) (h0 : 0 ≤ args.min_coverage) (h1 : args.min_coverage ≤ 1)
    (hfc : fileChecks fs args.ref_matrix (hash_to_idx_file args.ref_matrix)
      (processed_org_file args.ref_matrix) = .ok ())
    (names gvals : List Cell)
    (hn : getCol d.organism_data "organism_name" = some names)
    (hg : getCol d.organism_data "genome_scale_factor" = some gvals)
    (hwf : wfDF d.organism_data (dfRows d.organism_data)) :
    ((∃ nm k, runYACHT args fs d hrFn = .error (.scaleMismatch nm k)) ↔
      ∃ x ∈ names.zip gvals, cellInt x.2 ≠ d.sample_scale) ∧
    (∀ nm k, runYACHT args fs d hrFn = .error (.scaleMismatch nm k) →
      nm ∈ ((names.zip gvals).filter
        (fun x => decide (cellInt x.2 ≠ d.sample_scale))).map Prod.fst ∧
      k + 1 = (((names.zip gvals).filter
        (fun x => decide (cellInt x.2 ≠ d.sample_scale))).map Prod.fst).length ∧
      ∀ hrFn2 : HRFn,
        runYACHT args fs d hrFn2 = .error (.scaleMismatch nm k)) := by
  have hsd := sample_diffs_buildStage1 d.organism_data d.num_sample_kmers
    d.sample_hashes.length d.sample_scale names gvals hn hg hwf
  cases hL : ((names.zip gvals).filter
      (fun x => decide (cellInt x.2 ≠ d.sample_scale))).map Prod.fst with
  | nil =>
    have hsc : scaleCheck (buildStage1 d.organism_data d.num_sample_kmers
        d.sample_hashes.length d.sample_scale) = .ok () := by
      unfold scaleCheck
      rw [hsd, hL]
    have hrun := runYACHT_scale_ok args fs d hrFn h0 h1 hfc hsc
    constructor
    · constructor
      · rintro ⟨nm, k, hk⟩
        rw [hrun] at hk
        cases hk
      · rintro ⟨x, hx, hxne⟩
        exfalso
        have : x.1 ∈ ((names.zip gvals).filter
            (fun y => decide (cellInt y.2 ≠ d.sample_scale))).map Prod.fst :=
          List.mem_map_of_mem Prod.fst
            (List.mem_filter.mpr ⟨hx, by simpa using hxne⟩)
        rw [hL] at this
        cases this
    · intro nm k hk
      rw [hrun] at hk
      cases hk
  | cons nm0 rest =>
    have hsc : scaleCheck (buildStage1 d.organism_data d.num_sample_kmers
        d.sample_hashes.length d.sample_scale) =
        .error (.scaleMismatch nm0 rest.length) := by
      unfold scaleCheck
      rw [hsd, hL]
    have hrun : ∀ hrFn2 : HRFn, runYACHT args fs d hrFn2 =
        .error (.scaleMismatch nm0 rest.length) :=
      fun hrFn2 => runYACHT_scale_error args fs d hrFn2 h0 h1 hfc _ hsc
    constructor
    · constructor
      · intro _
        cases hfil : (names.zip gvals).filter
            (fun x => decide (cellInt x.2 ≠ d.sample_scale)) with
        | nil => rw [hfil] at hL; cases hL
        | cons y ys =>
          have hy : y ∈ (names.zip gvals).filter
              (fun x => decide (cellInt x.2 ≠ d.sample_scale)) := by
            rw [hfil]; exact List.mem_cons_self _ _
          have := List.mem_filter.mp hy
          exact ⟨y, this.1, by simpa using this.2⟩
      · intro _
        exact ⟨nm0, rest.length, hrun hrFn⟩
    · intro nm k hk
      have heq := (hrun hrFn).symm.trans hk
      simp only [Except.error.injEq, RunError.scaleMismatch.injEq] at heq
      obtain ⟨he1, he2⟩ := heq
      refine ⟨?_, ?_, ?_⟩
      · rw [← he1]; exact List.mem_cons_self _ _
      · rw [← he2]; simp
      · intro hrFn2
        rw [he1, he2] at hrun
        exact hrun hrFn2

/-- Witness for C2: a concrete run whose first organism was sketched at scale
2000 while the sample is at scale 1000 raises the mismatch error. -/
theorem scale_mismatch_gate_witness :
    ∃ nm k, runYACHT argsGood fsAll dBadScale hrTwo =
      .error (.scaleMismatch nm k) := by
  have h := scale_mismatch_gate argsGood fsAll dBadScale hrTwo (by decide)
    (by decide) (by rfl)
    [Cell.str "orgA", Cell.str "orgB"] [Cell.int 2000, Cell.int 1000]
    (by rfl) (by rfl) ⟨rfl, by decide⟩
  exact h.1.mpr ⟨(Cell.str "orgA", Cell.int 2000), by decide, by decide⟩

/-! ### Output assembly: column order and row alignment -/

theorem setCol_of_fresh {df : DFrame} {name : String} {vals : List Cell}
    (h : name ∉ df.map Prod.fst) : setCol df name vals = df ++ [(name, vals)] := by
  unfold setCol
  rw [if_neg h]

theorem addHypCols_fresh :
    ∀ (hyp df : DFrame), (∀ c ∈ hyp, c.1 ∉ df.map Prod.fst) →
      (hyp.map Prod.fst).Nodup → addHypCols df hyp = df ++ hyp := by
  intro hyp
  induction hyp with
  | nil => intro df _ _; simp [addHypCols]
  | cons c cs ih =>
    intro df hfresh hnd
    have hstep : setCol df c.1 c.2 = df ++ [c] := by
      rw [setCol_of_fresh (hfresh c (List.mem_cons_self _ _))]
    have hnd2 : (cs.map Prod.fst).Nodup := by
      rw [List.map_cons, List.nodup_cons] at hnd
      exact hnd.2
    have hfresh2 : ∀ e ∈ cs, e.1 ∉ (df ++ [c]).map Prod.fst := by
      intro e he
      rw [List.map_append, List.mem_append]
      rintro (hl | hr)
      · exact hfresh e (List.mem_cons_of_mem _ he) hl
      · rw [List.map_cons, List.nodup_cons] at hnd
        apply hnd.1
        have hr1 : e.1 = c.1 := by simpa using hr
        rw [← hr1]
        exact List.mem_map_of_mem Prod.fst he
    calc addHypCols df (c :: cs)
        = addHypCols (setCol df c.1 c.2) cs := rfl
      _ = (df ++ [c]) ++ cs := by rw [hstep, ih _ hfresh2 hnd2]
      _ = df ++ (c :: cs) := by simp

theorem getCol_addHypCols_notin :
    ∀ (hyp df : DFrame) (name : String), name ∉ hyp.map Prod.fst →
      getCol (addHypCols df hyp) name = getCol df name := by
  intro hyp
  induction hyp with
  | nil => intro df name _; rfl
  | cons c cs ih =>
    intro df name hn
    rw [List.map_cons, List.mem_cons] at hn
    push_neg at hn
    calc getCol (addHypCols (setCol df c.1 c.2) cs) name
        = getCol (setCol df c.1 c.2) name := ih _ _ hn.2
      _ = getCol df name := getCol_setCol_ne _ _ _ _ hn.1

theorem getCol_addHypCols_mem :
    ∀ (hyp df : DFrame) (c : String × List Cell), (hyp.map Prod.fst).Nodup →
      c ∈ hyp → getCol (addHypCols df hyp) c.1 = some c.2 := by
  intro hyp
  induction hyp with
  | nil => intro df c _ hc; cases hc
  | cons c0 cs ih =>
    intro df c hnd hc
    rw [List.map_cons, List.nodup_cons] at hnd
    rcases List.mem_cons.mp hc with rfl | hmem
    · calc getCol (addHypCols (setCol df c.1 c.2) cs) c.1
          = getCol (setCol df c.1 c.2) c.1 := getCol_addHypCols_notin _ _ _ hnd.1
        _ = some c.2 := getCol_setCol_self _ _ _
    · exact ih _ c hnd.2 hmem

theorem wfDF_addHypCols :
    ∀ (hyp df : DFrame) (n : Nat), wfDF df n → (∀ c ∈ hyp, c.2.length = n) →
      wfDF (addHypCols df hyp) n := by
  intro hyp
  induction hyp with
  | nil => intro df n h _; exact h
  | cons c cs ih =>
    intro df n h hlen
    exact ih _ n (wfDF_setCol h (hlen c (List.mem_cons_self _ _)))
      (fun e he => hlen e (List.mem_cons_of_mem _ he))

theorem getCol_of_mem_nodup {df : DFrame} (hnd : (df.map Prod.fst).Nodup)
    {p : String × List Cell} (hp : p ∈ df) : getCol df p.1 = some p.2 := by
  induction df with
  | nil => cases hp
  | cons q qs ih =>
    rw [List.map_cons, List.nodup_cons] at hnd
    rcases List.mem_cons.mp hp with rfl | hmem
    · unfold getCol
      rw [List.find?_cons_of_pos _ (by simp)]
      rfl
    · have hq : ¬(q.1 = p.1) := by
        intro he
        apply hnd.1
        rw [he]
        exact List.mem_map_of_mem Prod.fst hmem
      unfold getCol
      rw [List.find?_cons_of_neg _ (by simpa using hq)]
      exact ih hnd.2 hmem

theorem runYACHT_ok_inv {args : Args} {fs : FPath → Bool} {d : LoadedData}
    {hrFn : HRFn} {out : DFrame} (h : runYACHT args fs d hrFn = .ok out) :
    paramChecks args = .ok () ∧
    fileChecks fs args.ref_matrix (hash_to_idx_file args.ref_matrix)
      (processed_org_file args.ref_matrix) = .ok () ∧
    scaleCheck (buildStage1 d.organism_data d.num_sample_kmers
      d.sample_hashes.length d.sample_scale) = .ok () ∧
    out = addHypCols
      (setCol (setScalarCol (buildStage1 d.organism_data d.num_sample_kmers
          d.sample_hashes.length d.sample_scale) "min_coverage"
          (.rat args.min_coverage))
        "nontrivial_overlap"
        ((hrFn d.reference_matrix
          (sample_vector d.hash_to_idx d.sample_hashes) args.ksize
          args.significance args.ani_thresh args.min_coverage).2.map Cell.bool))
      (hrFn d.reference_matrix (sample_vector d.hash_to_idx d.sample_hashes)
        args.ksize args.significance args.ani_thresh args.min_coverage).1 := by
  unfold runYACHT at h
  cases hp : paramChecks args with
  | error e =>
    simp only [hp] at h
    exact (Except.noConfusion h)
  | ok u =>
    cases u
    simp only [hp] at h
    cases hf : fileChecks fs args.ref_matrix (hash_to_idx_file args.ref_matrix)
        (processed_org_file args.ref_matrix) with
    | error e =>
      simp only [hf] at h
      exact (Except.noConfusion h)
    | ok v =>
      cases v
      simp only [hf] at h
      cases hs : scaleCheck (buildStage1 d.organism_data d.num_sample_kmers
          d.sample_hashes.length d.sample_scale) with
      | error e =>
        simp only [hs] at h
        exact (Except.noConfusion h)
      | ok w =>
        cases w
        simp only [hs, Except.ok.injEq] at h
        exact ⟨rfl, rfl, rfl, h.symm⟩

theorem map_fst_setCol_fresh2 (name : String) (vals : List Cell) {df : DFrame}
    {base : List String} (hdf : df.map Prod.fst = base) (h : name ∉ base) :
    (setCol df name vals).map Prod.fst = base ++ [name] := by
  rw [setCol_of_fresh (by rw [hdf]; exact h)]
  simp [hdf]

theorem map_fst_setScalarCol_fresh2 (name : String) (c : Cell) {df : DFrame}
    {base : List String} (hdf : df.map Prod.fst = base) (h : name ∉ base) :
    (setScalarCol df name c).map Prod.fst = base ++ [name] := by
  unfold setScalarCol
  exact map_fst_setCol_fresh2 name _ hdf h

theorem map_fst_addHypCols_fresh2 (hyp : DFrame) {df : DFrame}
    {base : List String} (hdf : df.map Prod.fst = base)
    (h : ∀ c ∈ hyp, c.1 ∉ base) (hnd : (hyp.map Prod.fst).Nodup) :
    (addHypCols df hyp).map Prod.fst = base ++ hyp.map Prod.fst := by
  rw [addHypCols_fresh hyp df (fun c hc => by rw [hdf]; exact h c hc) hnd]
  simp [hdf]

/-- C6: in every successful run the output columns are, in order, the original
organism-metadata columns, then the sample-level columns
(`num_total_kmers_in_sample_sketch`, `num_exclusive_kmers_in_sample_sketch`,
`sample_scale_factor`), then the per-run `min_coverage` echo, then the
recovery columns (`nontrivial_overlap` followed by every column of the
recovery frame), provided all added names are fresh, as they are for the
organism files produced upstream. -/
theorem output_column_order (args : Args) (fs : FPath → Bool) (d : LoadedData)
    (hrFn : HRFn) (out hyp : DFrame) (flags : List Bool)
    (hrun : runYACHT args fs d hrFn = .ok out)
    (hhr : hrFn d.reference_matrix (sample_vector d.hash_to_idx d.sample_hashes)
      args.ksize args.significance args.ani_thresh args.min_coverage =
      (hyp, flags))
    (hfresh : ∀ nm ∈ ["num_total_kmers_in_sample_sketch",
      "num_exclusive_kmers_in_sample_sketch", "sample_scale_factor",
      "min_coverage", "nontrivial_overlap"], nm ∉ d.organism_data.map Prod.fst)
    (hhypfresh : ∀ c ∈ hyp, c.1 ∉ d.organism_data.map Prod.fst ∧
      c.1 ∉ ["num_total_kmers_in_sample_sketch",
        "num_exclusive_kmers_in_sample_sketch", "sample_scale_factor",
        "min_coverage", "nontrivial_overlap"])
    (hnd : (hyp.map Prod.fst).Nodup) :
    out.map Prod.fst = d.organism_data.map Prod.fst ++
      ["num_total_kmers_in_sample_sketch", "num_exclusive_kmers_in_sample_sketch",
        "sample_scale_factor", "min_coverage", "nontrivial_overlap"] ++
      hyp.map Prod.fst := by
  obtain ⟨-, -, -, hout⟩ := runYACHT_ok_inv hrun
  simp only [hhr] at hout
  have f1 := map_fst_setScalarCol_fresh2 "num_total_kmers_in_sample_sketch"
    (Cell.int d.num_sample_kmers)
    (rfl : d.organism_data.map Prod.fst = d.organism_data.map Prod.fst)
    (hfresh _ (by decide))
  have f2 := map_fst_setScalarCol_fresh2 "num_exclusive_kmers_in_sample_sketch"
    (Cell.int d.sample_hashes.length) f1
    (by simp only [List.mem_append, List.mem_singleton, not_or]
        exact ⟨hfresh _ (by decide), by decide⟩)
  have f3 := map_fst_setScalarCol_fresh2 "sample_scale_factor"
    (Cell.int d.sample_scale) f2
    (by simp only [List.mem_append, List.mem_singleton, not_or]
        exact ⟨⟨hfresh _ (by decide), by decide⟩, by decide⟩)
  have f3b : (buildStage1 d.organism_data d.num_sample_kmers
      d.sample_hashes.length d.sample_scale).map Prod.fst =
      d.organism_data.map Prod.fst ++ ["num_total_kmers_in_sample_sketch"] ++
        ["num_exclusive_kmers_in_sample_sketch"] ++ ["sample_scale_factor"] := by
    unfold buildStage1
    exact f3
  have f4 := map_fst_setScalarCol_fresh2 "min_coverage"
    (Cell.rat args.min_coverage) f3b
    (by simp only [List.mem_append, List.mem_singleton, not_or]
        exact ⟨⟨⟨hfresh _ (by decide), by decide⟩, by decide⟩, by decide⟩)
  have f5 := map_fst_setCol_fresh2 "nontrivial_overlap"
    (flags.map Cell.bool) f4
    (by simp only [List.mem_append, List.mem_singleton, not_or]
        exact ⟨⟨⟨⟨hfresh _ (by decide), by decide⟩, by decide⟩, by decide⟩,
          by decide⟩)
  have f6 := map_fst_addHypCols_fresh2 hyp f5
    (by intro c hc
        have h1 := (hhypfresh c hc).1
        have h2 := (hhypfresh c hc).2
        simp only [List.mem_cons, List.mem_singleton, not_or] at h2
        simp only [List.mem_append, List.mem_singleton, not_or]
        exact ⟨⟨⟨⟨⟨h1, h2.1⟩, h2.2.1⟩, h2.2.2.1⟩, h2.2.2.2.1⟩, h2.2.2.2.2.1⟩)
    hnd
  rw [hout, f6]
  simp

/-- Witness for C6 on a complete concrete run: the output column list is the
two metadata columns, the three sample-level columns, `min_coverage`, then
the recovery columns. -/
theorem output_column_order_witness :
    (runYACHT argsGood fsAll dGood hrTwo).map (fun df => df.map Prod.fst) =
      .ok ["organism_name", "genome_scale_factor",
        "num_total_kmers_in_sample_sketch", "num_exclusive_kmers_in_sample_sketch",
        "sample_scale_factor", "min_coverage", "nontrivial_overlap",
        "in_sample_est"] := by
  cases hout : runYACHT argsGood fsAll dGood hrTwo with
  | error e =>
    have hok : (runYACHT argsGood fsAll dGood hrTwo).isOk = true := by decide
    rw [hout] at hok
    simp [Except.isOk, Except.toBool] at hok
  | ok out =>
    have hcols := output_column_order argsGood fsAll dGood hrTwo out
      [("in_sample_est", [Cell.int 1, Cell.int 0])] [true, false] hout rfl
      (by decide) (by decide) (by decide)
    simp only [Except.map]
    rw [hcols]
    exact congrArg Except.ok (by decide)

theorem getCol_setScalarCol_ne (df : DFrame) (name qname : String) (c : Cell)
    (h : qname ≠ name) : getCol (setScalarCol df name c) qname = getCol df qname := by
  unfold setScalarCol
  exact getCol_setCol_ne _ _ _ _ h

/-- C7: in every successful run the output frame has every column of length
`n` (one entry per organism, none dropped or added), reproduces every original
metadata column unchanged (hence in the original row order), stores the
nontrivial-overlap flags as given, and reproduces every recovery column as
given (index-aligned join, no re-sort), under the same freshness side
conditions as the column-order theorem. -/
theorem row_alignment (args : Args) (fs : FPath → Bool) (d : LoadedData)
    (hrFn : HRFn) (out hyp : DFrame) (flags : List Bool) (n : Nat)
    (hrun : runYACHT args fs d hrFn = .ok out)
    (hhr : hrFn d.reference_matrix (sample_vector d.hash_to_idx d.sample_hashes)
      args.ksize args.significance args.ani_thresh args.min_coverage =
      (hyp, flags))
    (hwf : wfDF d.organism_data n)
    (hornd : (d.organism_data.map Prod.fst).Nodup)
    (hflags : flags.length = n)
    (hhyplen : ∀ c ∈ hyp, c.2.length = n)
    (hnd : (hyp.map Prod.fst).Nodup)
    (hfive : ∀ nm ∈ d.organism_data.map Prod.fst,
      nm ∉ ["num_total_kmers_in_sample_sketch",
        "num_exclusive_kmers_in_sample_sketch", "sample_scale_factor",
        "min_coverage", "nontrivial_overlap"])
    (hhypdisj : ∀ nm ∈ hyp.map Prod.fst,
      nm ∉ d.organism_data.map Prod.fst ∧
      nm ∉ ["num_total_kmers_in_sample_sketch",
        "num_exclusive_kmers_in_sample_sketch", "sample_scale_factor",
        "min_coverage", "nontrivial_overlap"]) :
    (∀ c ∈ out, c.2.length = n) ∧
    (∀ p ∈ d.organism_data, getCol out p.1 = some p.2) ∧
    getCol out "nontrivial_overlap" = some (flags.map Cell.bool) ∧
    (∀ c ∈ hyp, getCol out c.1 = some c.2) := by
  obtain ⟨-, -, -, hout⟩ := runYACHT_ok_inv hrun
  simp only [hhr] at hout
  have w1 : wfDF (buildStage1 d.organism_data d.num_sample_kmers
      d.sample_hashes.length d.sample_scale) n := by
    unfold buildStage1
    exact wfDF_setScalarCol (wfDF_setScalarCol (wfDF_setScalarCol hwf _ _) _ _) _ _
  have w2 := wfDF_setScalarCol w1 "min_coverage" (Cell.rat args.min_coverage)
  have w3 : wfDF (setCol (setScalarCol (buildStage1 d.organism_data
      d.num_sample_kmers d.sample_hashes.length d.sample_scale) "min_coverage"
      (Cell.rat args.min_coverage)) "nontrivial_overlap"
      (flags.map Cell.bool)) n :=
    wfDF_setCol w2 (by rw [List.length_map]; exact hflags)
  have w4 := wfDF_addHypCols hyp _ n w3 hhyplen
  refine ⟨?_, ?_, ?_, ?_⟩
  · rw [hout]
    exact w4.2
  · intro p hp
    have hpmem : p.1 ∈ d.organism_data.map Prod.fst :=
      List.mem_map_of_mem Prod.fst hp
    have h5 := hfive _ hpmem
    simp only [List.mem_cons, List.mem_singleton, not_or] at h5
    rw [hout,
      getCol_addHypCols_notin hyp _ _ (fun hm => (hhypdisj _ hm).1 hpmem),
      getCol_setCol_ne _ _ _ _ h5.2.2.2.2.1,
      getCol_setScalarCol_ne _ _ _ _ h5.2.2.2.1]
    unfold buildStage1
    rw [getCol_setScalarCol_ne _ _ _ _ h5.2.2.1,
      getCol_setScalarCol_ne _ _ _ _ h5.2.1,
      getCol_setScalarCol_ne _ _ _ _ h5.1]
    exact getCol_of_mem_nodup hornd hp
  · rw [hout,
      getCol_addHypCols_notin hyp _ _ (fun hm => (hhypdisj _ hm).2 (by decide))]
    exact getCol_setCol_self _ _ _
  · intro c hc
    rw [hout]
    exact getCol_addHypCols_mem hyp _ c hnd hc

/-- Witness for C7 on the same concrete run: the organism-name column of the
output equals the original one, rows in order. -/
theorem row_alignment_witness :
    (runYACHT argsGood fsAll dGood hrTwo).map
        (fun df => getCol df "organism_name") =
      .ok (some [Cell.str "orgA", Cell.str "orgB"]) := by
  cases hout : runYACHT argsGood fsAll dGood hrTwo with
  | error e =>
    have hok : (runYACHT argsGood fsAll dGood hrTwo).isOk = true := by decide
    rw [hout] at hok
    simp [Except.isOk, Except.toBool] at hok
  | ok out =>
    have h := row_alignment argsGood fsAll dGood hrTwo out
      [("in_sample_est", [Cell.int 1, Cell.int 0])] [true, false] 2 hout rfl
      ⟨by decide, by decide⟩ (by decide) (by decide) (by decide) (by decide)
      (by decide) (by decide)
    simp only [Except.map]
    rw [h.2.1 ("organism_name", [Cell.str "orgA", Cell.str "orgB"]) (by decide)]

/-! ### Monotonicity of the spec-modelled decision threshold -/

theorem leastT_ge (P : Nat → Bool) : ∀ (fuel t : Nat), t ≤ leastT P t fuel := by
  intro fuel
  induction fuel with
  | zero => intro t; exact le_refl t
  | succ f ih =>
    intro t
    simp only [leastT]
    by_cases hp : P t = true
    · rw [if_pos hp]
    · rw [if_neg hp]
      exact le_trans (Nat.le_succ t) (ih (t + 1))

theorem leastT_mono (P Q : Nat → Bool) (h : ∀ t, Q t = true → P t = true) :
    ∀ (fuel t : Nat), leastT P t fuel ≤ leastT Q t fuel := by
  intro fuel
  induction fuel with
  | zero => intro t; exact le_refl t
  | succ f ih =>
    intro t
    simp only [leastT]
    by_cases hq : Q t = true
    · rw [if_pos (h t hq), if_pos hq]
    · rw [if_neg hq]
      by_cases hp : P t = true
      · rw [if_pos hp]
        exact le_trans (Nat.le_succ t) (leastT_ge Q f (t + 1))
      · rw [if_neg hp]
        exact ih (t + 1)

/-- C8: for a fixed organism (sketch size `n_g`) and fixed `p0` and
`min_coverage`, increasing `significance` never decreases the decision
threshold `t_g` (spec-modelled tester: the threshold is the least `t` with
`P[Binomial(n_eff, p0) ≥ t] ≤ 1 - significance`, and a larger significance
shrinks the admissible set). -/
theorem t_g_mono_significance (n_g : Nat) (p0 min_coverage : ℚ)
    {s1 s2 : ℚ} (h : s1 ≤ s2) :
    t_g n_g p0 min_coverage s1 ≤ t_g n_g p0 min_coverage s2 := by
  simp only [t_g]
  apply leastT_mono
  intro t ht
  simp only [decide_eq_true_eq] at ht ⊢
  exact le_trans ht (by linarith)

/-- Witness for C8 at `n_g = 5`, `p0 = 1/2`, `min_coverage = 1`,
`significance` raised from `1/2` to `3/4`. -/
theorem t_g_mono_significance_witness :
    t_g 5 (1/2) 1 (1/2) ≤ t_g 5 (1/2) 1 (3/4) :=
  t_g_mono_significance 5 (1/2) 1 (by norm_num)
